import Mathlib

/-!
Verification development for QuickSignPDF (`src/quicksignpdf/app.py`).

The Python source is shallowly embedded: float arithmetic is modelled by `ℚ`,
Qt's `QPointF`/`QRectF` by explicit structures with Qt's documented field
semantics (`QRectF.intersected`, `setTop`, `moveCenter`, ... follow Qt's
`qrect.cpp`), `QImage` by a width/height pair plus a per-pixel alpha function,
and the external PDF mutation call by an `Except` outcome parameter.
-/

/-! ## Points and the Catmull-Rom evaluator (`SignatureCanvas._catmull`) -/

structure PointF where
  x : ℚ
  y : ℚ
deriving DecidableEq

/-- Embeds `SignatureCanvas._catmull(p0, p1, p2, p3, t)`. -/
def catmull (p0 p1 p2 p3 : PointF) (t : ℚ) : PointF :=
  let t2 := t * t
  let t3 := t * t * t
  { x := 0.5 * (
      (2 * p1.x) + (-p0.x + p2.x) * t +
      (2 * p0.x - 5 * p1.x + 4 * p2.x - p3.x) * t2 +
      (-p0.x + 3 * p1.x - 3 * p2.x + p3.x) * t3),
    y := 0.5 * (
      (2 * p1.y) + (-p0.y + p2.y) * t +
      (2 * p0.y - 5 * p1.y + 4 * p2.y - p3.y) * t2 +
      (-p0.y + 3 * p1.y - 3 * p2.y + p3.y) * t3) }

/-! ## Adaptive smoothing constants and velocity mapping
(`SignatureCanvas.__init__`, `_alpha_for`, `_ema`) -/

/-- Embeds `self.smin = 0.14`. -/
def smin : ℚ := 0.14

/-- Embeds `self.smax = 0.65`. -/
def smax : ℚ := 0.65

/-- Embeds `self.vref = 2.8`. -/
def vref : ℚ := 2.8

/-- Embeds `SignatureCanvas._alpha_for`: `t = max(0.0, min(1.0, v / self.vref));
return self.smin + (self.smax - self.smin) * t`. -/
def alpha_for (v : ℚ) : ℚ :=
  smin + (smax - smin) * max 0 (min 1 (v / vref))

/-- Embeds the elapsed-time computation in `SignatureCanvas._ema`:
`dt = max(1, now - self._last_ms)`. -/
def ema_dt (last_ms now : Int) : Int := max 1 (now - last_ms)

/-- Embeds the speed division in `SignatureCanvas._ema`:
`v = (dx*dx + dy*dy) ** 0.5 / dt`, with the Euclidean distance
`(dx*dx + dy*dy) ** 0.5` passed in as the nonnegative value `d`. -/
def ema_speed (d : ℚ) (dt : Int) : ℚ := d / (dt : ℚ)

/-! ## Contain-fit drawing of the preview image (`PdfViewer._draw_canvas`) -/

structure DrawParams where
  scale : ℚ
  draw_w : ℚ
  draw_h : ℚ
  draw_x : ℚ
  draw_y : ℚ
deriving DecidableEq

structure RectF where
  x : ℚ
  y : ℚ
  w : ℚ
  h : ℚ
deriving DecidableEq

def RectF.left (r : RectF) : ℚ := r.x

def RectF.right (r : RectF) : ℚ := r.x + r.w

def RectF.top (r : RectF) : ℚ := r.y

def RectF.bottom (r : RectF) : ℚ := r.y + r.h

/-- Embeds the contain-fit block of `PdfViewer._draw_canvas` (the branch
`if img_w > 0 and img_h > 0`): `sx = r.width() / img_w; sy = r.height() / img_h;
scale = min(sx, sy); draw_w = img_w * scale; draw_h = img_h * scale;
draw_x = r.x() + (r.width() - draw_w) / 2.0; draw_y = r.y() + (r.height() - draw_h) / 2.0`. -/
def containFit (img_w img_h : ℚ) (r : RectF) : DrawParams :=
  let sx := r.w / img_w
  let sy := r.h / img_h
  let scale := min sx sy
  let draw_w := img_w * scale
  let draw_h := img_h * scale
  let draw_x := r.x + (r.w - draw_w) / 2
  let draw_y := r.y + (r.h - draw_h) / 2
  ⟨scale, draw_w, draw_h, draw_x, draw_y⟩

/-! ## Page-index clamping in `insert_signature_png` -/

/-- Embeds `page_index = max(0, min(page_index, len(doc) - 1))` from
`insert_signature_png`. -/
def clampPageIndex (page_index : Int) (numPages : Nat) : Int :=
  max 0 (min page_index ((numPages : Int) - 1))

/-- Models the page lookup `doc[page_index]` of the external document object:
valid (returns a page) exactly when the index is within `[0, numPages)`. -/
def pageAccess (numPages : Nat) (i : Int) : Option Nat :=
  if 0 ≤ i ∧ i < (numPages : Int) then some i.toNat else none

/-! ## QRectF operations, after Qt's `qrect.cpp` semantics -/

/-- Lower end of a 1-D span with possibly negative length (Qt's `l1` in
`QRectF::operator&`). -/
def qSpanLo (pos len : ℚ) : ℚ := if len < 0 then pos + len else pos

/-- Upper end of a 1-D span with possibly negative length (Qt's `r1` in
`QRectF::operator&`). -/
def qSpanHi (pos len : ℚ) : ℚ := if len < 0 then pos else pos + len

def RectF.translate (r : RectF) (dx dy : ℚ) : RectF :=
  { r with x := r.x + dx, y := r.y + dy }

/-- Qt `QRectF::setTop`: moves the top edge, keeping the bottom edge fixed. -/
def RectF.setTop (r : RectF) (pos : ℚ) : RectF :=
  { r with y := pos, h := r.h - (pos - r.y) }

/-- Qt `QRectF::setLeft`: moves the left edge, keeping the right edge fixed. -/
def RectF.setLeft (r : RectF) (pos : ℚ) : RectF :=
  { r with x := pos, w := r.w - (pos - r.x) }

/-- Qt `QRectF::setRight`: `w = pos - x`. -/
def RectF.setRight (r : RectF) (pos : ℚ) : RectF :=
  { r with w := pos - r.x }

/-- Qt `QRectF::setBottom`: `h = pos - y`. -/
def RectF.setBottom (r : RectF) (pos : ℚ) : RectF :=
  { r with h := pos - r.y }

def RectF.setWidth (r : RectF) (len : ℚ) : RectF := { r with w := len }

def RectF.setHeight (r : RectF) (len : ℚ) : RectF := { r with h := len }

/-- Qt `QRectF::center`, x coordinate: `x + w/2`. -/
def RectF.centerX (r : RectF) : ℚ := r.x + r.w / 2

/-- Qt `QRectF::center`, y coordinate: `y + h/2`. -/
def RectF.centerY (r : RectF) : ℚ := r.y + r.h / 2

/-- Qt `QRectF::moveCenter`: `x = cx - w/2; y = cy - h/2`. -/
def RectF.moveCenter (r : RectF) (cx cy : ℚ) : RectF :=
  { r with x := cx - r.w / 2, y := cy - r.h / 2 }

/-- Qt `QRectF::isEmpty`: `w <= 0 || h <= 0`. -/
def RectF.isEmptyQ (r : RectF) : Prop := r.w ≤ 0 ∨ r.h ≤ 0

instance (r : RectF) : Decidable r.isEmptyQ := by
  unfold RectF.isEmptyQ; infer_instance

/-- Qt `QRectF::operator&` (`intersected`): returns the null rectangle
`(0,0,0,0)` when either operand has a null extent on some axis or the
(normalized) extents do not properly overlap; otherwise the max/min box. -/
def RectF.intersected (r s : RectF) : RectF :=
  if qSpanLo r.x r.w = qSpanHi r.x r.w then ⟨0, 0, 0, 0⟩
  else if qSpanLo s.x s.w = qSpanHi s.x s.w then ⟨0, 0, 0, 0⟩
  else if qSpanHi s.x s.w ≤ qSpanLo r.x r.w ∨ qSpanHi r.x r.w ≤ qSpanLo s.x s.w then
    ⟨0, 0, 0, 0⟩
  else if qSpanLo r.y r.h = qSpanHi r.y r.h then ⟨0, 0, 0, 0⟩
  else if qSpanLo s.y s.h = qSpanHi s.y s.h then ⟨0, 0, 0, 0⟩
  else if qSpanHi s.y s.h ≤ qSpanLo r.y r.h ∨ qSpanHi r.y r.h ≤ qSpanLo s.y s.h then
    ⟨0, 0, 0, 0⟩
  else
    ⟨max (qSpanLo r.x r.w) (qSpanLo s.x s.w),
     max (qSpanLo r.y r.h) (qSpanLo s.y s.h),
     min (qSpanHi r.x r.w) (qSpanHi s.x s.w) - max (qSpanLo r.x r.w) (qSpanLo s.x s.w),
     min (qSpanHi r.y r.h) (qSpanHi s.y s.h) - max (qSpanLo r.y r.h) (qSpanLo s.y s.h)⟩

/-- Qt `QRectF::contains(QPointF)`. -/
def RectF.containsPt (r : RectF) (px py : ℚ) : Bool :=
  if qSpanLo r.x r.w = qSpanHi r.x r.w then false
  else if px < qSpanLo r.x r.w ∨ qSpanHi r.x r.w < px then false
  else if qSpanLo r.y r.h = qSpanHi r.y r.h then false
  else if py < qSpanLo r.y r.h ∨ qSpanHi r.y r.h < py then false
  else true

/-- Geometric containment of `r` in `pix` (the "fully contained within the
page-pixel bounds" property of the claims). -/
def RectF.containedIn (r pix : RectF) : Prop :=
  pix.x ≤ r.x ∧ r.x + r.w ≤ pix.x + pix.w ∧ pix.y ≤ r.y ∧ r.y + r.h ≤ pix.y + pix.h

instance (r pix : RectF) : Decidable (r.containedIn pix) := by
  unfold RectF.containedIn; infer_instance

/-! ## Preview-rectangle gestures (`PdfViewer._drag_sel`, `_wheel_event`) -/

inductive Corner
  | tl
  | tr
  | bl
  | br
deriving DecidableEq

/-- One complete user gesture on the active placement rectangle. -/
inductive PreviewOp
  | drag (dx dy : ℚ)
  | resize (c : Corner) (dx dy : ℚ)
  | zoom (px py delta : ℚ)
deriving DecidableEq

/-- Embeds the corner branch of `PdfViewer._drag_sel` (the `setTop`/`setLeft`/
`setRight`/`setBottom` calls for the dragged corner). -/
def resizeRaw (r : RectF) (c : Corner) (dx dy : ℚ) : RectF :=
  match c with
  | Corner.tl =>
      let r1 := r.setTop (r.top + dy)
      r1.setLeft (r1.left + dx)
  | Corner.tr =>
      let r1 := r.setTop (r.top + dy)
      r1.setRight (r1.right + dx)
  | Corner.bl =>
      let r1 := r.setBottom (r.bottom + dy)
      r1.setLeft (r1.left + dx)
  | Corner.br =>
      let r1 := r.setBottom (r.bottom + dy)
      r1.setRight (r1.right + dx)

/-- Embeds the minimum-size fixups of `PdfViewer._drag_sel`:
`if r.width() < 40: r.setRight(r.left() + 40)` and
`if r.height() < 20: r.setBottom(r.top() + 20)`. -/
def resizeMin (r : RectF) : RectF :=
  let r1 := if r.w < 40 then r.setRight (r.left + 40) else r
  if r1.h < 20 then r1.setBottom (r1.top + 20) else r1

/-- One gesture applied to the current preview rectangle `r`, with `pix` the
rendered page-pixel rectangle. Drag and resize follow `PdfViewer._drag_sel`;
zoom follows `PdfViewer._wheel_event` (including its
`self._preview_rect.contains(p)` guard and `factor = 1.0 + 0.0015 * delta`). -/
def applyOp (pix r : RectF) : PreviewOp → RectF
  | PreviewOp.drag dx dy => (r.translate dx dy).intersected pix
  | PreviewOp.resize c dx dy => (resizeMin (resizeRaw r c dx dy)).intersected pix
  | PreviewOp.zoom px py delta =>
      if r.containsPt px py then
        let factor := 1 + 0.0015 * delta
        let cx := r.centerX
        let cy := r.centerY
        let r1 := (r.setWidth (r.w * factor)).setHeight (r.h * factor)
        (r1.moveCenter cx cy).intersected pix
      else r

def applyOps (pix r0 : RectF) (ops : List PreviewOp) : RectF :=
  ops.foldl (applyOp pix) r0

/-- Rendered page-pixel rectangle of `PdfViewer` (`pix_rect` in `_drag_sel`
and `_wheel_event`). -/
def examplePixRect : RectF := ⟨0, 0, 500, 500⟩

/-- A user page-area selection seeding the preview rectangle. -/
def exampleSelRect : RectF := ⟨0, 0, 100, 50⟩

/-! ## QImage alpha raster and `crop_alpha_bbox` -/

structure QImg where
  w : Nat
  h : Nat
  alpha : Nat → Nat → Nat

abbrev ScanState := Int × Int × Int × Int

/-- One pixel step of the scan loop of `crop_alpha_bbox`: on
`qimg.pixelColor(x, y).alpha() > 0` the four running extrema are updated
(`if x < minx: minx = x` is the running minimum, `if x > maxx: maxx = x`
the running maximum, and likewise for `y`). -/
def scanPix (img : QImg) (st : ScanState) (p : Nat × Nat) : ScanState :=
  if 0 < img.alpha p.1 p.2 then
    (min st.1 (p.1 : Int), min st.2.1 (p.2 : Int),
     max st.2.2.1 (p.1 : Int), max st.2.2.2 (p.2 : Int))
  else st

/-- Inner loop `for x in range(w)` of `crop_alpha_bbox` at row `y`. -/
def scanRow (img : QImg) (st : ScanState) (y : Nat) : ScanState :=
  (List.range img.w).foldl (fun st x => scanPix img st (x, y)) st

/-- Full pixel scan of `crop_alpha_bbox` (`for y in range(h): for x in
range(w): ...`), starting from `minx, miny, maxx, maxy = w, h, -1, -1`. -/
def scanAlpha (img : QImg) : ScanState :=
  (List.range img.h).foldl (scanRow img) ((img.w : Int), (img.h : Int), -1, -1)

/-- Embeds `minx = max(0, minx - padding)` of `crop_alpha_bbox`. -/
def cropMinX (img : QImg) (padding : Int) : Int :=
  max 0 ((scanAlpha img).1 - padding)

/-- Embeds `miny = max(0, miny - padding)` of `crop_alpha_bbox`. -/
def cropMinY (img : QImg) (padding : Int) : Int :=
  max 0 ((scanAlpha img).2.1 - padding)

/-- Embeds `maxx = min(w - 1, maxx + padding)` of `crop_alpha_bbox`. -/
def cropMaxX (img : QImg) (padding : Int) : Int :=
  min ((img.w : Int) - 1) ((scanAlpha img).2.2.1 + padding)

/-- Embeds `maxy = min(h - 1, maxy + padding)` of `crop_alpha_bbox`. -/
def cropMaxY (img : QImg) (padding : Int) : Int :=
  min ((img.h : Int) - 1) ((scanAlpha img).2.2.2 + padding)

/-- Embeds `crop_alpha_bbox(qimg, padding)`: scan for the alpha bounding box;
`if maxx < 0: return qimg` (fully transparent); otherwise pad, clamp, and
return `qimg.copy(QRect(minx, miny, maxx - minx + 1, maxy - miny + 1))`
(pixel `(x, y)` of the copy is pixel `(x + minx, y + miny)` of `qimg`). -/
def crop_alpha_bbox (qimg : QImg) (padding : Int) : QImg :=
  if (scanAlpha qimg).2.2.1 < 0 then qimg
  else
    { w := (cropMaxX qimg padding - cropMinX qimg padding + 1).toNat,
      h := (cropMaxY qimg padding - cropMinY qimg padding + 1).toNat,
      alpha := fun x y =>
        qimg.alpha (x + (cropMinX qimg padding).toNat)
                   (y + (cropMinY qimg padding).toNat) }

/-- Pixel `(x, y)` lies inside the image and is non-transparent. -/
def inSupport (img : QImg) (x y : Nat) : Prop :=
  x < img.w ∧ y < img.h ∧ 0 < img.alpha x y

/-- Row-major list of all pixel coordinates for rows `ys`. -/
def pixListAux (img : QImg) (ys : List Nat) : List (Nat × Nat) :=
  match ys with
  | [] => []
  | y :: t => ((List.range img.w).map (fun x => (x, y))) ++ pixListAux img t

/-- Row-major list of all pixel coordinates of `img`. -/
def pixList (img : QImg) : List (Nat × Nat) := pixListAux img (List.range img.h)

/-- The x coordinates of the non-transparent pixels of `L`. -/
def hotXs (img : QImg) (L : List (Nat × Nat)) : List Int :=
  (L.filter (fun p => decide (0 < img.alpha p.1 p.2))).map (fun p => (p.1 : Int))

/-- The y coordinates of the non-transparent pixels of `L`. -/
def hotYs (img : QImg) (L : List (Nat × Nat)) : List Int :=
  (L.filter (fun p => decide (0 < img.alpha p.1 p.2))).map (fun p => (p.2 : Int))

/-! ## Signature pad confirm/reject and the `sign_here` guard -/

/-- Embeds `SignaturePad.accept`: `self._png_bytes` is set to the PNG
encoding of `crop_alpha_bbox(self.canvas.image(), padding=16)`. PNG bytes of
an image are always a nonempty byte string and the encoding is lossless for
RGBA, so the byte string is modelled by the encoded image itself. -/
def result_png_bytes_after_accept (canvasImg : QImg) : Option QImg :=
  some (crop_alpha_bbox canvasImg 16)

/-- Embeds `SignaturePad.reject`: `self._png_bytes = None`. -/
def result_png_bytes_after_reject : Option QImg := none

/-- Embeds the guard in `PdfViewer.sign_here`:
`png_bytes = pad.result_png_bytes()` followed by `if not png_bytes: return`;
the placement flow continues exactly when the bytes are present. -/
def sign_here_proceeds (png_bytes : Option QImg) : Bool :=
  match png_bytes with
  | none => false
  | some _ => true

/-! ## Viewer preview state, `apply_signature` and `cancel_signature` -/

/-- Display geometry of `PdfViewer`: canvas contents size (`cr`), rendered
page pixmap size (`self.pm_size`) and `self.render_scale`. -/
structure Geometry where
  crW : ℚ
  crH : ℚ
  pmW : ℚ
  pmH : ℚ
  render_scale : ℚ

/-- Embeds `PdfViewer._canvas_rect_to_pdf_points`: translate by the
buffer-centering offset, intersect with the page pixel rectangle, fail on an
empty result, else divide the edges by the render scale. -/
def canvas_rect_to_pdf_points (g : Geometry) (r : RectF) : Option (ℚ × ℚ × ℚ × ℚ) :=
  let x_off := (g.crW - g.pmW) / 2
  let y_off := (g.crH - g.pmH) / 2
  let r2 := (r.translate (-x_off) (-y_off)).intersected ⟨0, 0, g.pmW, g.pmH⟩
  if r2.w ≤ 0 ∨ r2.h ≤ 0 then none
  else some (r2.left / g.render_scale, r2.top / g.render_scale,
             r2.right / g.render_scale, r2.bottom / g.render_scale)

/-- A message box shown to the user (`QMessageBox.warning/critical/information`). -/
inductive Msg
  | warning (title text : String)
  | critical (title text : String)
  | information (title text : String)
deriving DecidableEq

/-- The preview-related state of `PdfViewer`. -/
structure ViewerPreview where
  preview_active : Bool
  preview_img : Option QImg
  preview_rect : Option RectF
  btn_apply_visible : Bool
  btn_cancel_visible : Bool

/-- Embeds `PdfViewer.cancel_signature`. -/
def cancel_signature (s : ViewerPreview) : ViewerPreview :=
  { s with preview_active := false, preview_img := none, preview_rect := none,
           btn_apply_visible := false, btn_cancel_visible := false }

/-- Embeds `PdfViewer.apply_signature`. `insert_result` is the outcome of the
external `insert_signature_png` call (`Except.error e` models the call
raising `e`). The source's `try/except/finally` reports the outcome and then
always runs `self.cancel_signature()` in the `finally` block. -/
def apply_signature (g : Geometry) (insert_result : Except String String)
    (s : ViewerPreview) : ViewerPreview × List Msg :=
  match s.preview_active, s.preview_img, s.preview_rect with
  | true, some _, some r =>
    match canvas_rect_to_pdf_points g r with
    | none => (s, [Msg.warning "Firmar" "La firma quedó fuera de la página."])
    | some _ =>
      match insert_result with
      | Except.ok out =>
          (cancel_signature s,
           [Msg.information "Firmar" ("PDF firmado guardado:\n" ++ out)])
      | Except.error e =>
          (cancel_signature s,
           [Msg.critical "Firmar" ("Error al insertar firma:\n" ++ e)])
  | _, _, _ => (s, [])

/-! ## Concrete instances used by witnesses and counterexamples -/

/-- A fully transparent 2×2 drawing buffer (a capture session with zero
strokes). -/
def transparentImg : QImg := ⟨2, 2, fun _ _ => 0⟩

/-- A 5×5 image with a single opaque pixel at (2, 2). -/
def dotImg : QImg := ⟨5, 5, fun x y => if x = 2 ∧ y = 2 then 1 else 0⟩

def exampleGeometry : Geometry := ⟨500, 500, 400, 400, 1⟩

def examplePreviewRect : RectF := ⟨100, 100, 120, 60⟩

def examplePreviewState : ViewerPreview :=
  ⟨true, some transparentImg, some examplePreviewRect, true, true⟩

/-! ## Theorems for claims C4, C5, C8, C9, C10 -/

theorem catmull_at_zero (p0 p1 p2 p3 : PointF) : catmull p0 p1 p2 p3 0 = p1 := by
  unfold catmull
  cases p1
  simp only [PointF.mk.injEq]
  constructor <;> ring

theorem catmull_at_one (p0 p1 p2 p3 : PointF) : catmull p0 p1 p2 p3 1 = p2 := by
  unfold catmull
  cases p2
  simp only [PointF.mk.injEq]
  constructor <;> ring

/-- Claim C4: the Catmull-Rom evaluation returns exactly the second control
point at parameter 0 and exactly the third control point at parameter 1, for
all four control points. -/
theorem catmull_endpoint_values (p0 p1 p2 p3 : PointF) :
    catmull p0 p1 p2 p3 0 = p1 ∧ catmull p0 p1 p2 p3 1 = p2 :=
  ⟨catmull_at_zero p0 p1 p2 p3, catmull_at_one p0 p1 p2 p3⟩

lemma vref_pos : (0 : ℚ) < vref := by norm_num [vref]

lemma smax_sub_smin_nonneg : (0 : ℚ) ≤ smax - smin := by norm_num [smax, smin]

lemma alpha_for_mono (v1 v2 : ℚ) (h : v1 ≤ v2) : alpha_for v1 ≤ alpha_for v2 := by
  unfold alpha_for
  have hv : v1 / vref ≤ v2 / vref := by
    exact div_le_div_of_nonneg_right h vref_pos.le
  have hmin : min 1 (v1 / vref) ≤ min 1 (v2 / vref) := min_le_min le_rfl hv
  have hmax : max 0 (min 1 (v1 / vref)) ≤ max 0 (min 1 (v2 / vref)) :=
    max_le_max le_rfl hmin
  nlinarith [smax_sub_smin_nonneg]

/-- Claim C5: the velocity-to-alpha mapping equals
`smin + (smax - smin) * clamp(v / vref, 0, 1)`; it always lies in
`[smin, smax]`, is monotone non-decreasing in the speed, and for a fixed
spatial distance `d` a smaller elapsed time yields an alpha at least as
large. -/
theorem alpha_for_formula_range_monotone (v v1 v2 d : ℚ) (dt1 dt2 : Int)
    (hv : 0 ≤ v) (h12 : v1 ≤ v2) (hd : 0 ≤ d) (hdt1 : 1 ≤ dt1) (hdt : dt1 ≤ dt2) :
    alpha_for v = smin + (smax - smin) * max 0 (min (v / vref) 1) ∧
    smin ≤ alpha_for v ∧ alpha_for v ≤ smax ∧
    alpha_for v1 ≤ alpha_for v2 ∧
    alpha_for (ema_speed d dt2) ≤ alpha_for (ema_speed d dt1) := by
  refine ⟨by rw [alpha_for, min_comm], ?_, ?_, alpha_for_mono v1 v2 h12, ?_⟩
  · unfold alpha_for
    have h0 : (0 : ℚ) ≤ max 0 (min 1 (v / vref)) := le_max_left 0 _
    nlinarith [smax_sub_smin_nonneg]
  · unfold alpha_for
    have h1 : max 0 (min 1 (v / vref)) ≤ 1 := by
      apply max_le (by norm_num) (min_le_left 1 _)
    nlinarith [smax_sub_smin_nonneg, smax_sub_smin_nonneg.trans_eq rfl]
  · apply alpha_for_mono
    unfold ema_speed
    have hq1 : (0 : ℚ) < (dt1 : ℚ) := by exact_mod_cast lt_of_lt_of_le Int.zero_lt_one hdt1
    have hq2 : (dt1 : ℚ) ≤ (dt2 : ℚ) := by exact_mod_cast hdt
    gcongr

theorem alpha_for_formula_range_monotone_witness :
    alpha_for 1 = smin + (smax - smin) * max 0 (min (1 / vref) 1) ∧
    smin ≤ alpha_for 1 ∧ alpha_for 1 ≤ smax ∧
    alpha_for 0 ≤ alpha_for 3 ∧
    alpha_for (ema_speed 2 4) ≤ alpha_for (ema_speed 2 1) :=
  alpha_for_formula_range_monotone 1 0 3 2 1 4 (by norm_num) (by norm_num)
    (by norm_num) (by norm_num) (by norm_num)

/-- Claim C9: the elapsed-time divisor of the exponential-smoothing step is
`max(1, now - lastTimestamp)`, hence always at least 1 and never zero, even
when two samples carry the same timestamp. -/
theorem ema_dt_at_least_one (last_ms now : Int) :
    ema_dt last_ms now = max 1 (now - last_ms) ∧
    1 ≤ ema_dt last_ms now ∧
    ema_dt last_ms now ≠ 0 ∧
    ema_dt now now = 1 := by
  refine ⟨rfl, le_max_left 1 _, ?_, by simp [ema_dt]⟩
  have h : 1 ≤ ema_dt last_ms now := le_max_left 1 _
  omega

/-- Claim C8: contain-fit drawing for a `w×h` image inside rect `r` uses
scale `min(r.w / w, r.h / h)`, drawn size `(w*scale, h*scale)`, and the drawn
image is centered on both axes of the rect. -/
theorem contain_fit_scale_centered (img_w img_h : ℚ) (r : RectF)
    (hw : 0 < img_w) (hh : 0 < img_h) :
    (containFit img_w img_h r).scale = min (r.w / img_w) (r.h / img_h) ∧
    (containFit img_w img_h r).draw_w = img_w * (containFit img_w img_h r).scale ∧
    (containFit img_w img_h r).draw_h = img_h * (containFit img_w img_h r).scale ∧
    (containFit img_w img_h r).draw_x + (containFit img_w img_h r).draw_w / 2
      = r.x + r.w / 2 ∧
    (containFit img_w img_h r).draw_y + (containFit img_w img_h r).draw_h / 2
      = r.y + r.h / 2 := by
  unfold containFit
  refine ⟨rfl, rfl, rfl, by ring, by ring⟩

theorem contain_fit_scale_centered_witness :
    (containFit 600 300 ⟨0, 0, 300, 100⟩).scale = min ((300 : ℚ) / 600) (100 / 300) ∧
    (containFit 600 300 ⟨0, 0, 300, 100⟩).draw_w
      = 600 * (containFit 600 300 ⟨0, 0, 300, 100⟩).scale ∧
    (containFit 600 300 ⟨0, 0, 300, 100⟩).draw_h
      = 300 * (containFit 600 300 ⟨0, 0, 300, 100⟩).scale ∧
    (containFit 600 300 ⟨0, 0, 300, 100⟩).draw_x
      + (containFit 600 300 ⟨0, 0, 300, 100⟩).draw_w / 2 = 0 + (300 : ℚ) / 2 ∧
    (containFit 600 300 ⟨0, 0, 300, 100⟩).draw_y
      + (containFit 600 300 ⟨0, 0, 300, 100⟩).draw_h / 2 = 0 + (100 : ℚ) / 2 :=
  contain_fit_scale_centered 600 300 ⟨0, 0, 300, 100⟩ (by norm_num) (by norm_num)

/-- Claim C10: `insert_signature_png` clamps the page index into
`[0, numPages - 1]`; an out-of-range index never fails the page lookup and
targets the nearest valid page. -/
theorem insert_page_index_clamped (i : Int) (numPages : Nat) (h : 1 ≤ numPages) :
    0 ≤ clampPageIndex i numPages ∧
    clampPageIndex i numPages < (numPages : Int) ∧
    pageAccess numPages (clampPageIndex i numPages) ≠ none ∧
    (i < 0 → clampPageIndex i numPages = 0) ∧
    ((numPages : Int) ≤ i → clampPageIndex i numPages = (numPages : Int) - 1) ∧
    (0 ≤ i → i < (numPages : Int) → clampPageIndex i numPages = i) := by
  have h0 : 0 ≤ clampPageIndex i numPages := le_max_left 0 _
  have h1 : clampPageIndex i numPages < (numPages : Int) := by
    unfold clampPageIndex
    omega
  refine ⟨h0, h1, ?_, ?_, ?_, ?_⟩
  · unfold pageAccess
    rw [if_pos ⟨h0, h1⟩]
    simp
  · intro hi; unfold clampPageIndex; omega
  · intro hi; unfold clampPageIndex; omega
  · intro hi hilt; unfold clampPageIndex; omega

theorem insert_page_index_clamped_witness :
    0 ≤ clampPageIndex 5 3 ∧
    clampPageIndex 5 3 < ((3 : Nat) : Int) ∧
    pageAccess 3 (clampPageIndex 5 3) ≠ none ∧
    ((5 : Int) < 0 → clampPageIndex 5 3 = 0) ∧
    (((3 : Nat) : Int) ≤ 5 → clampPageIndex 5 3 = ((3 : Nat) : Int) - 1) ∧
    (0 ≤ (5 : Int) → (5 : Int) < ((3 : Nat) : Int) → clampPageIndex 5 3 = 5) :=
  insert_page_index_clamped 5 3 (by norm_num)

/-! ## Theorems for claim C1 -/

lemma intersected_contained (a pix : RectF) (hw : 0 ≤ pix.w) (hh : 0 ≤ pix.h) :
    (a.intersected pix).containedIn pix ∨ (a.intersected pix).isEmptyQ := by
  have hlw : qSpanLo pix.x pix.w = pix.x := by
    unfold qSpanLo; rw [if_neg (not_lt.mpr hw)]
  have hhw : qSpanHi pix.x pix.w = pix.x + pix.w := by
    unfold qSpanHi; rw [if_neg (not_lt.mpr hw)]
  have hlh : qSpanLo pix.y pix.h = pix.y := by
    unfold qSpanLo; rw [if_neg (not_lt.mpr hh)]
  have hhh : qSpanHi pix.y pix.h = pix.y + pix.h := by
    unfold qSpanHi; rw [if_neg (not_lt.mpr hh)]
  unfold RectF.intersected
  split_ifs with h1 h2 h3 h4 h5 h6
  · right; exact Or.inl le_rfl
  · right; exact Or.inl le_rfl
  · right; exact Or.inl le_rfl
  · right; exact Or.inl le_rfl
  · right; exact Or.inl le_rfl
  · right; exact Or.inl le_rfl
  · left
    unfold RectF.containedIn
    dsimp only
    rw [hlw, hhw, hlh, hhh]
    refine ⟨le_max_right _ _, ?_, le_max_right _ _, ?_⟩
    · have h := min_le_right (qSpanHi a.x a.w) (pix.x + pix.w)
      linarith
    · have h := min_le_right (qSpanHi a.y a.h) (pix.y + pix.h)
      linarith

lemma applyOp_inv (pix r : RectF) (op : PreviewOp) (hw : 0 ≤ pix.w) (hh : 0 ≤ pix.h)
    (h : r.containedIn pix ∨ r.isEmptyQ) :
    (applyOp pix r op).containedIn pix ∨ (applyOp pix r op).isEmptyQ := by
  cases op with
  | drag dx dy => exact intersected_contained _ _ hw hh
  | resize c dx dy => exact intersected_contained _ _ hw hh
  | zoom px py delta =>
      simp only [applyOp]
      split_ifs with hc
      · exact intersected_contained _ _ hw hh
      · exact h

/-- Claim C1 (amended): after any sequence of drag/resize/zoom gestures,
starting from a rectangle contained in the page-pixel bounds (or empty), the
placement rectangle stays contained in the page-pixel bounds or becomes
empty. The claimed 40-wide / 20-high minimum does not survive clamping (see
the counterexample). -/
theorem preview_rect_clamped_amended (pix r0 : RectF) (ops : List PreviewOp)
    (hw : 0 ≤ pix.w) (hh : 0 ≤ pix.h) (h0 : r0.containedIn pix ∨ r0.isEmptyQ) :
    (applyOps pix r0 ops).containedIn pix ∨ (applyOps pix r0 ops).isEmptyQ := by
  induction ops generalizing r0 with
  | nil => exact h0
  | cons op t ih =>
      exact ih (applyOp pix r0 op) (applyOp_inv pix r0 op hw hh h0)

theorem preview_rect_clamped_amended_witness :
    (0 : ℚ) ≤ examplePixRect.w ∧ (0 : ℚ) ≤ examplePixRect.h ∧
    (exampleSelRect.containedIn examplePixRect ∨ exampleSelRect.isEmptyQ) ∧
    ((applyOps examplePixRect exampleSelRect [PreviewOp.drag 30 40]).containedIn
        examplePixRect ∨
      (applyOps examplePixRect exampleSelRect [PreviewOp.drag 30 40]).isEmptyQ) :=
  ⟨by norm_num [examplePixRect], by norm_num [examplePixRect],
    Or.inl (by norm_num [RectF.containedIn, exampleSelRect, examplePixRect]),
    preview_rect_clamped_amended examplePixRect exampleSelRect [PreviewOp.drag 30 40]
      (by norm_num [examplePixRect]) (by norm_num [examplePixRect])
      (Or.inl (by norm_num [RectF.containedIn, exampleSelRect, examplePixRect]))⟩

/-- Claim C1 is false as stated: the initial selection rectangle 100×50 is
inside the 500×500 page pixels with width ≥ 40, but a single drag by
(490, 0) is clamped by rectangle intersection down to width 10 < 40. -/
theorem preview_rect_min_size_counterexample :
    40 ≤ exampleSelRect.w ∧
    exampleSelRect.containedIn examplePixRect ∧
    ¬ (40 ≤ (applyOps examplePixRect exampleSelRect [PreviewOp.drag 490 0]).w) := by
  refine ⟨by norm_num [exampleSelRect], ?_, ?_⟩
  · norm_num [RectF.containedIn, exampleSelRect, examplePixRect]
  · norm_num [applyOps, List.foldl, applyOp, RectF.translate, RectF.intersected,
      qSpanLo, qSpanHi, exampleSelRect, examplePixRect]

/-! ## Theorems for claim C2 -/

lemma example_pdf_points_ne_none :
    canvas_rect_to_pdf_points exampleGeometry examplePreviewRect ≠ none := by
  norm_num [canvas_rect_to_pdf_points, RectF.translate, RectF.intersected,
    qSpanLo, qSpanHi, exampleGeometry, examplePreviewRect]
  simp

/-- Claim C2 (amended): when the external insertion call raises, the error is
reported to the user, but the controller does not stay in the preview state:
the `finally` block runs `cancel_signature`, clearing the preview image, the
placement rectangle and the active flag, so the user must restart the flow. -/
theorem apply_signature_error_reported_and_cancelled (g : Geometry)
    (s : ViewerPreview) (e : String) (img : QImg) (r : RectF)
    (ha : s.preview_active = true) (hi : s.preview_img = some img)
    (hr : s.preview_rect = some r)
    (hpt : canvas_rect_to_pdf_points g r ≠ none) :
    (apply_signature g (Except.error e) s).1 = cancel_signature s ∧
    (apply_signature g (Except.error e) s).1.preview_active = false ∧
    (apply_signature g (Except.error e) s).1.preview_img = none ∧
    (apply_signature g (Except.error e) s).1.preview_rect = none ∧
    Msg.critical "Firmar" ("Error al insertar firma:\n" ++ e)
      ∈ (apply_signature g (Except.error e) s).2 := by
  obtain ⟨v, hv⟩ := Option.ne_none_iff_exists'.mp hpt
  have happ : apply_signature g (Except.error e) s
      = (cancel_signature s,
         [Msg.critical "Firmar" ("Error al insertar firma:\n" ++ e)]) := by
    unfold apply_signature
    rw [ha, hi, hr]
    dsimp only
    rw [hv]
  rw [happ]
  exact ⟨rfl, rfl, rfl, rfl, List.mem_singleton.mpr rfl⟩

theorem apply_signature_error_reported_and_cancelled_witness :
    (apply_signature exampleGeometry (Except.error "disco lleno")
        examplePreviewState).1 = cancel_signature examplePreviewState ∧
    (apply_signature exampleGeometry (Except.error "disco lleno")
        examplePreviewState).1.preview_active = false ∧
    (apply_signature exampleGeometry (Except.error "disco lleno")
        examplePreviewState).1.preview_img = none ∧
    (apply_signature exampleGeometry (Except.error "disco lleno")
        examplePreviewState).1.preview_rect = none ∧
    Msg.critical "Firmar" ("Error al insertar firma:\n" ++ "disco lleno")
      ∈ (apply_signature exampleGeometry (Except.error "disco lleno")
          examplePreviewState).2 :=
  apply_signature_error_reported_and_cancelled exampleGeometry examplePreviewState
    "disco lleno" transparentImg examplePreviewRect rfl rfl rfl
    example_pdf_points_ne_none

/-- Claim C2 is false as stated: from an active preview state whose rectangle
maps to valid page points, an insertion error leaves the controller with
`preview_active = false` (the preview is cleared by the `finally` block), not
in the unchanged preview state the claim requires. -/
theorem apply_signature_preserves_preview_counterexample :
    examplePreviewState.preview_active = true ∧
    (apply_signature exampleGeometry (Except.error "disco lleno")
        examplePreviewState).1.preview_active = false := by
  obtain ⟨v, hv⟩ := Option.ne_none_iff_exists'.mp example_pdf_points_ne_none
  refine ⟨rfl, ?_⟩
  have happ : apply_signature exampleGeometry (Except.error "disco lleno")
      examplePreviewState
      = (cancel_signature examplePreviewState,
         [Msg.critical "Firmar" ("Error al insertar firma:\n" ++ "disco lleno")]) := by
    unfold apply_signature
    have h1 : examplePreviewState.preview_active = true := rfl
    have h2 : examplePreviewState.preview_img = some transparentImg := rfl
    have h3 : examplePreviewState.preview_rect = some examplePreviewRect := rfl
    rw [h1, h2, h3]
    dsimp only
    rw [hv]
  rw [happ]
  rfl

/-! ## Scan characterization for `crop_alpha_bbox` (claims C3, C6, C7) -/

lemma scanRow_eq_foldl (img : QImg) (st : ScanState) (y : Nat) :
    scanRow img st y
      = ((List.range img.w).map (fun x => (x, y))).foldl (scanPix img) st := by
  rw [List.foldl_map]
  rfl

lemma foldl_scanRow_eq (img : QImg) (ys : List Nat) (st : ScanState) :
    ys.foldl (scanRow img) st = (pixListAux img ys).foldl (scanPix img) st := by
  induction ys generalizing st with
  | nil => rfl
  | cons y t ih =>
      simp only [List.foldl_cons, pixListAux, List.foldl_append]
      rw [← scanRow_eq_foldl, ih]

lemma mem_pixListAux (img : QImg) (ys : List Nat) (a b : Nat) :
    (a, b) ∈ pixListAux img ys ↔ a < img.w ∧ b ∈ ys := by
  induction ys with
  | nil => simp [pixListAux]
  | cons y t ih =>
      simp only [pixListAux, List.mem_append, List.mem_map, List.mem_range,
        List.mem_cons, ih, Prod.mk.injEq]
      constructor
      · rintro (⟨x, hx, rfl, rfl⟩ | ⟨h1, h2⟩)
        · exact ⟨hx, Or.inl rfl⟩
        · exact ⟨h1, Or.inr h2⟩
      · rintro ⟨h1, rfl | h2⟩
        · exact Or.inl ⟨a, h1, rfl, rfl⟩
        · exact Or.inr ⟨h1, h2⟩

lemma mem_pixList (img : QImg) (a b : Nat) :
    (a, b) ∈ pixList img ↔ a < img.w ∧ b < img.h := by
  rw [pixList, mem_pixListAux]
  simp [List.mem_range]

lemma foldl_scanPix_decomp (img : QImg) (L : List (Nat × Nat)) (st : ScanState) :
    L.foldl (scanPix img) st =
      ((hotXs img L).foldl min st.1, (hotYs img L).foldl min st.2.1,
       (hotXs img L).foldl max st.2.2.1, (hotYs img L).foldl max st.2.2.2) := by
  induction L generalizing st with
  | nil => simp [hotXs, hotYs]
  | cons q t ih =>
      by_cases hq : 0 < img.alpha q.1 q.2
      · have hstep : scanPix img st q =
            (min st.1 (q.1 : Int), min st.2.1 (q.2 : Int),
             max st.2.2.1 (q.1 : Int), max st.2.2.2 (q.2 : Int)) := by
          unfold scanPix; rw [if_pos hq]
        have hx : hotXs img (q :: t) = (q.1 : Int) :: hotXs img t := by
          unfold hotXs; rw [List.filter_cons_of_pos (by simpa using hq)]; rfl
        have hy : hotYs img (q :: t) = (q.2 : Int) :: hotYs img t := by
          unfold hotYs; rw [List.filter_cons_of_pos (by simpa using hq)]; rfl
        rw [List.foldl_cons, ih, hstep, hx, hy]
        rfl
      · have hstep : scanPix img st q = st := by
          unfold scanPix; rw [if_neg hq]
        have hx : hotXs img (q :: t) = hotXs img t := by
          unfold hotXs; rw [List.filter_cons_of_neg (by simpa using hq)]
        have hy : hotYs img (q :: t) = hotYs img t := by
          unfold hotYs; rw [List.filter_cons_of_neg (by simpa using hq)]
        rw [List.foldl_cons, ih, hstep, hx, hy]

lemma scanAlpha_decomp (img : QImg) :
    scanAlpha img =
      ((hotXs img (pixList img)).foldl min (img.w : Int),
       (hotYs img (pixList img)).foldl min (img.h : Int),
       (hotXs img (pixList img)).foldl max (-1),
       (hotYs img (pixList img)).foldl max (-1)) := by
  have h1 : scanAlpha img
      = (pixList img).foldl (scanPix img) ((img.w : Int), (img.h : Int), -1, -1) := by
    unfold scanAlpha pixList
    exact foldl_scanRow_eq img (List.range img.h) _
  rw [h1, foldl_scanPix_decomp]

lemma foldl_min_le_init (l : List Int) (a : Int) : l.foldl min a ≤ a := by
  induction l generalizing a with
  | nil => exact le_rfl
  | cons x t ih => exact le_trans (ih (min a x)) (min_le_left a x)

lemma foldl_min_le_mem (l : List Int) : ∀ a x : Int, x ∈ l → l.foldl min a ≤ x := by
  induction l with
  | nil => intro a x hx; cases hx
  | cons q t ih =>
      intro a x hx
      rcases List.mem_cons.mp hx with rfl | h
      · exact le_trans (foldl_min_le_init t (min a x)) (min_le_right a x)
      · exact ih (min a q) x h

lemma foldl_min_eq_init_or_mem (l : List Int) :
    ∀ a : Int, l.foldl min a = a ∨ l.foldl min a ∈ l := by
  induction l with
  | nil => intro a; exact Or.inl rfl
  | cons q t ih =>
      intro a
      rcases ih (min a q) with h | h
      · rcases min_cases a q with ⟨hm, _⟩ | ⟨hm, _⟩
        · exact Or.inl (by rw [List.foldl_cons, h, hm])
        · refine Or.inr ?_
          rw [List.foldl_cons, h, hm]
          exact List.mem_cons_self q t
      · exact Or.inr (List.mem_cons_of_mem q (by rw [List.foldl_cons]; exact h))

lemma le_foldl_max_init (l : List Int) (a : Int) : a ≤ l.foldl max a := by
  induction l generalizing a with
  | nil => exact le_rfl
  | cons x t ih => exact le_trans (le_max_left a x) (ih (max a x))

lemma le_foldl_max_mem (l : List Int) : ∀ a x : Int, x ∈ l → x ≤ l.foldl max a := by
  induction l with
  | nil => intro a x hx; cases hx
  | cons q t ih =>
      intro a x hx
      rcases List.mem_cons.mp hx with rfl | h
      · exact le_trans (le_max_right a x) (le_foldl_max_init t (max a x))
      · exact ih (max a q) x h

lemma foldl_max_eq_init_or_mem (l : List Int) :
    ∀ a : Int, l.foldl max a = a ∨ l.foldl max a ∈ l := by
  induction l with
  | nil => intro a; exact Or.inl rfl
  | cons q t ih =>
      intro a
      rcases ih (max a q) with h | h
      · rcases max_cases a q with ⟨hm, _⟩ | ⟨hm, _⟩
        · exact Or.inl (by rw [List.foldl_cons, h, hm])
        · refine Or.inr ?_
          rw [List.foldl_cons, h, hm]
          exact List.mem_cons_self q t
      · exact Or.inr (List.mem_cons_of_mem q (by rw [List.foldl_cons]; exact h))

lemma mem_hotXs (img : QImg) (L : List (Nat × Nat)) (z : Int) :
    z ∈ hotXs img L ↔ ∃ p, p ∈ L ∧ 0 < img.alpha p.1 p.2 ∧ (p.1 : Int) = z := by
  unfold hotXs
  simp only [List.mem_map, List.mem_filter, decide_eq_true_eq]
  constructor
  · rintro ⟨p, ⟨h1, h2⟩, h3⟩
    exact ⟨p, h1, h2, h3⟩
  · rintro ⟨p, h1, h2, h3⟩
    exact ⟨p, ⟨h1, h2⟩, h3⟩

lemma mem_hotYs (img : QImg) (L : List (Nat × Nat)) (z : Int) :
    z ∈ hotYs img L ↔ ∃ p, p ∈ L ∧ 0 < img.alpha p.1 p.2 ∧ (p.2 : Int) = z := by
  unfold hotYs
  simp only [List.mem_map, List.mem_filter, decide_eq_true_eq]
  constructor
  · rintro ⟨p, ⟨h1, h2⟩, h3⟩
    exact ⟨p, h1, h2, h3⟩
  · rintro ⟨p, h1, h2, h3⟩
    exact ⟨p, ⟨h1, h2⟩, h3⟩

lemma hotXs_mem_of_support (img : QImg) (x y : Nat) (h : inSupport img x y) :
    (x : Int) ∈ hotXs img (pixList img) :=
  (mem_hotXs img (pixList img) (x : Int)).mpr
    ⟨(x, y), (mem_pixList img x y).mpr ⟨h.1, h.2.1⟩, h.2.2, rfl⟩

lemma hotYs_mem_of_support (img : QImg) (x y : Nat) (h : inSupport img x y) :
    (y : Int) ∈ hotYs img (pixList img) :=
  (mem_hotYs img (pixList img) (y : Int)).mpr
    ⟨(x, y), (mem_pixList img x y).mpr ⟨h.1, h.2.1⟩, h.2.2, rfl⟩

lemma scanAlpha_minx_le (img : QImg) (x y : Nat) (h : inSupport img x y) :
    (scanAlpha img).1 ≤ (x : Int) := by
  rw [scanAlpha_decomp]
  exact foldl_min_le_mem _ _ _ (hotXs_mem_of_support img x y h)

lemma scanAlpha_miny_le (img : QImg) (x y : Nat) (h : inSupport img x y) :
    (scanAlpha img).2.1 ≤ (y : Int) := by
  rw [scanAlpha_decomp]
  exact foldl_min_le_mem _ _ _ (hotYs_mem_of_support img x y h)

lemma le_scanAlpha_maxx (img : QImg) (x y : Nat) (h : inSupport img x y) :
    (x : Int) ≤ (scanAlpha img).2.2.1 := by
  rw [scanAlpha_decomp]
  exact le_foldl_max_mem _ _ _ (hotXs_mem_of_support img x y h)

lemma le_scanAlpha_maxy (img : QImg) (x y : Nat) (h : inSupport img x y) :
    (y : Int) ≤ (scanAlpha img).2.2.2 := by
  rw [scanAlpha_decomp]
  exact le_foldl_max_mem _ _ _ (hotYs_mem_of_support img x y h)

lemma scanAlpha_minx_achieved (img : QImg) (x0 y0 : Nat) (h0 : inSupport img x0 y0) :
    ∃ x y : Nat, inSupport img x y ∧ (scanAlpha img).1 = (x : Int) := by
  rcases foldl_min_eq_init_or_mem (hotXs img (pixList img)) (img.w : Int) with h | h
  · exfalso
    have hle := scanAlpha_minx_le img x0 y0 h0
    rw [scanAlpha_decomp] at hle
    dsimp only at hle
    rw [h] at hle
    have hx0 : x0 < img.w := h0.1
    omega
  · obtain ⟨p, hpL, hphot, hpx⟩ := (mem_hotXs img (pixList img) _).mp h
    obtain ⟨a, b⟩ := p
    have hab := (mem_pixList img a b).mp hpL
    refine ⟨a, b, ⟨hab.1, hab.2, hphot⟩, ?_⟩
    rw [scanAlpha_decomp]
    exact hpx.symm

lemma scanAlpha_miny_achieved (img : QImg) (x0 y0 : Nat) (h0 : inSupport img x0 y0) :
    ∃ x y : Nat, inSupport img x y ∧ (scanAlpha img).2.1 = (y : Int) := by
  rcases foldl_min_eq_init_or_mem (hotYs img (pixList img)) (img.h : Int) with h | h
  · exfalso
    have hle := scanAlpha_miny_le img x0 y0 h0
    rw [scanAlpha_decomp] at hle
    dsimp only at hle
    rw [h] at hle
    have hy0 : y0 < img.h := h0.2.1
    omega
  · obtain ⟨p, hpL, hphot, hpy⟩ := (mem_hotYs img (pixList img) _).mp h
    obtain ⟨a, b⟩ := p
    have hab := (mem_pixList img a b).mp hpL
    refine ⟨a, b, ⟨hab.1, hab.2, hphot⟩, ?_⟩
    rw [scanAlpha_decomp]
    exact hpy.symm

lemma scanAlpha_maxx_achieved (img : QImg) (x0 y0 : Nat) (h0 : inSupport img x0 y0) :
    ∃ x y : Nat, inSupport img x y ∧ (scanAlpha img).2.2.1 = (x : Int) := by
  rcases foldl_max_eq_init_or_mem (hotXs img (pixList img)) (-1) with h | h
  · exfalso
    have hle := le_scanAlpha_maxx img x0 y0 h0
    rw [scanAlpha_decomp] at hle
    dsimp only at hle
    rw [h] at hle
    omega
  · obtain ⟨p, hpL, hphot, hpx⟩ := (mem_hotXs img (pixList img) _).mp h
    obtain ⟨a, b⟩ := p
    have hab := (mem_pixList img a b).mp hpL
    refine ⟨a, b, ⟨hab.1, hab.2, hphot⟩, ?_⟩
    rw [scanAlpha_decomp]
    exact hpx.symm

lemma scanAlpha_maxy_achieved (img : QImg) (x0 y0 : Nat) (h0 : inSupport img x0 y0) :
    ∃ x y : Nat, inSupport img x y ∧ (scanAlpha img).2.2.2 = (y : Int) := by
  rcases foldl_max_eq_init_or_mem (hotYs img (pixList img)) (-1) with h | h
  · exfalso
    have hle := le_scanAlpha_maxy img x0 y0 h0
    rw [scanAlpha_decomp] at hle
    dsimp only at hle
    rw [h] at hle
    omega
  · obtain ⟨p, hpL, hphot, hpy⟩ := (mem_hotYs img (pixList img) _).mp h
    obtain ⟨a, b⟩ := p
    have hab := (mem_pixList img a b).mp hpL
    refine ⟨a, b, ⟨hab.1, hab.2, hphot⟩, ?_⟩
    rw [scanAlpha_decomp]
    exact hpy.symm

lemma scanAlpha_of_transparent (img : QImg)
    (h : ∀ x y, x < img.w → y < img.h → img.alpha x y = 0) :
    scanAlpha img = ((img.w : Int), (img.h : Int), -1, -1) := by
  have hfil : (pixList img).filter (fun p => decide (0 < img.alpha p.1 p.2)) = [] := by
    rw [List.filter_eq_nil_iff]
    intro p hp
    obtain ⟨a, b⟩ := p
    have hab := (mem_pixList img a b).mp hp
    simp [h a b hab.1 hab.2]
  rw [scanAlpha_decomp]
  unfold hotXs hotYs
  rw [hfil]
  rfl

lemma crop_eq_of_transparent (img : QImg) (padding : Int)
    (h : ∀ x y, x < img.w → y < img.h → img.alpha x y = 0) :
    crop_alpha_bbox img padding = img := by
  unfold crop_alpha_bbox
  rw [scanAlpha_of_transparent img h]
  norm_num

/-- Claim C6: for a fully transparent image, the alpha-bbox crop returns the
input image unchanged, with its original dimensions. -/
theorem crop_transparent_unchanged (img : QImg) (padding : Int)
    (h : ∀ x y, x < img.w → y < img.h → img.alpha x y = 0) :
    crop_alpha_bbox img padding = img ∧
    (crop_alpha_bbox img padding).w = img.w ∧
    (crop_alpha_bbox img padding).h = img.h := by
  have hc := crop_eq_of_transparent img padding h
  exact ⟨hc, by rw [hc], by rw [hc]⟩

theorem crop_transparent_unchanged_witness :
    crop_alpha_bbox transparentImg 16 = transparentImg ∧
    (crop_alpha_bbox transparentImg 16).w = transparentImg.w ∧
    (crop_alpha_bbox transparentImg 16).h = transparentImg.h :=
  crop_transparent_unchanged transparentImg 16 (fun _ _ _ _ => rfl)

/-! ## Theorems for claim C3 -/

/-- Claim C3 (amended): confirming a capture session with zero strokes yields
a present final image — the untouched, fully transparent buffer, PNG-encoded
as a nonempty byte string — and the `if not png_bytes` guard in `sign_here`
does not fire, so the placement flow proceeds with the empty image. -/
theorem accept_empty_session_produces_image (canvasImg : QImg)
    (h : ∀ x y, x < canvasImg.w → y < canvasImg.h → canvasImg.alpha x y = 0) :
    result_png_bytes_after_accept canvasImg = some canvasImg ∧
    sign_here_proceeds (result_png_bytes_after_accept canvasImg) = true := by
  have hc := crop_eq_of_transparent canvasImg 16 h
  constructor
  · unfold result_png_bytes_after_accept
    rw [hc]
  · rfl

theorem accept_empty_session_produces_image_witness :
    result_png_bytes_after_accept transparentImg = some transparentImg ∧
    sign_here_proceeds (result_png_bytes_after_accept transparentImg) = true :=
  accept_empty_session_produces_image transparentImg (fun _ _ _ _ => rfl)

/-- Claim C3 is false as stated: confirming the fully transparent 2×2 buffer
produces present PNG bytes (not an absent image), and the placement flow's
guard lets it proceed. -/
theorem empty_capture_absent_image_counterexample :
    result_png_bytes_after_accept transparentImg ≠ none ∧
    sign_here_proceeds (result_png_bytes_after_accept transparentImg) = true := by
  constructor
  · simp [result_png_bytes_after_accept]
  · rfl

/-! ## Theorems for claim C7 -/

lemma crop_body (img : QImg) (p : Int) (h : 0 ≤ (scanAlpha img).2.2.1) :
    crop_alpha_bbox img p =
      { w := (cropMaxX img p - cropMinX img p + 1).toNat,
        h := (cropMaxY img p - cropMinY img p + 1).toNat,
        alpha := fun x y =>
          img.alpha (x + (cropMinX img p).toNat) (y + (cropMinY img p).toNat) } := by
  unfold crop_alpha_bbox
  rw [if_neg (by omega)]

lemma crop_nonempty_data (img : QImg) (p : Int) (hp : 0 ≤ p)
    (x0 y0 : Nat) (h0 : inSupport img x0 y0) :
    ((crop_alpha_bbox img p).w : Int) = cropMaxX img p - cropMinX img p + 1 ∧
    ((crop_alpha_bbox img p).h : Int) = cropMaxY img p - cropMinY img p + 1 ∧
    (scanAlpha (crop_alpha_bbox img p)).1 = (scanAlpha img).1 - cropMinX img p ∧
    (scanAlpha (crop_alpha_bbox img p)).2.1 = (scanAlpha img).2.1 - cropMinY img p ∧
    (scanAlpha (crop_alpha_bbox img p)).2.2.1
      = (scanAlpha img).2.2.1 - cropMinX img p ∧
    (scanAlpha (crop_alpha_bbox img p)).2.2.2
      = (scanAlpha img).2.2.2 - cropMinY img p ∧
    (∃ x y : Nat, inSupport (crop_alpha_bbox img p) x y) ∧
    0 ≤ cropMinX img p ∧ (scanAlpha img).1 - p ≤ cropMinX img p ∧
    cropMinX img p ≤ (scanAlpha img).1 ∧
    (scanAlpha img).2.2.1 ≤ cropMaxX img p ∧
    cropMaxX img p ≤ (scanAlpha img).2.2.1 + p ∧
    0 ≤ cropMinY img p ∧ (scanAlpha img).2.1 - p ≤ cropMinY img p ∧
    cropMinY img p ≤ (scanAlpha img).2.1 ∧
    (scanAlpha img).2.2.2 ≤ cropMaxY img p ∧
    cropMaxY img p ≤ (scanAlpha img).2.2.2 + p ∧
    0 ≤ (scanAlpha img).1 ∧ (scanAlpha img).1 ≤ (scanAlpha img).2.2.1 ∧
    0 ≤ (scanAlpha img).2.1 ∧ (scanAlpha img).2.1 ≤ (scanAlpha img).2.2.2 := by
  obtain ⟨xm, ym, hsm, hm⟩ := scanAlpha_minx_achieved img x0 y0 h0
  obtain ⟨xn, yn, hsn, hn⟩ := scanAlpha_miny_achieved img x0 y0 h0
  obtain ⟨xM, yM, hsM, hM⟩ := scanAlpha_maxx_achieved img x0 y0 h0
  obtain ⟨xN, yN, hsN, hN⟩ := scanAlpha_maxy_achieved img x0 y0 h0
  have hxMw : xM < img.w := hsM.1
  have hyNh : yN < img.h := hsN.2.1
  have hmnx0 : 0 ≤ (scanAlpha img).1 := by rw [hm]; omega
  have hmny0 : 0 ≤ (scanAlpha img).2.1 := by rw [hn]; omega
  have hmaxx0 : 0 ≤ (scanAlpha img).2.2.1 := by rw [hM]; omega
  have hmaxy0 : 0 ≤ (scanAlpha img).2.2.2 := by rw [hN]; omega
  have hmnx_le_maxx : (scanAlpha img).1 ≤ (scanAlpha img).2.2.1 := by
    rw [hM]; exact scanAlpha_minx_le img xM yM hsM
  have hmny_le_maxy : (scanAlpha img).2.1 ≤ (scanAlpha img).2.2.2 := by
    rw [hN]; exact scanAlpha_miny_le img xN yN hsN
  have hA0 : 0 ≤ cropMinX img p := le_max_left 0 _
  have hC0 : 0 ≤ cropMinY img p := le_max_left 0 _
  have hA_ge : (scanAlpha img).1 - p ≤ cropMinX img p := le_max_right _ _
  have hC_ge : (scanAlpha img).2.1 - p ≤ cropMinY img p := le_max_right _ _
  have hA_le : cropMinX img p ≤ (scanAlpha img).1 := by
    unfold cropMinX; omega
  have hC_le : cropMinY img p ≤ (scanAlpha img).2.1 := by
    unfold cropMinY; omega
  have hB_ge : (scanAlpha img).2.2.1 ≤ cropMaxX img p := by
    unfold cropMaxX; rw [hM]; omega
  have hD_ge : (scanAlpha img).2.2.2 ≤ cropMaxY img p := by
    unfold cropMaxY; rw [hN]; omega
  have hB_le_w : cropMaxX img p ≤ (img.w : Int) - 1 := min_le_left _ _
  have hD_le_h : cropMaxY img p ≤ (img.h : Int) - 1 := min_le_left _ _
  have hB_le_xp : cropMaxX img p ≤ (scanAlpha img).2.2.1 + p := min_le_right _ _
  have hD_le_yp : cropMaxY img p ≤ (scanAlpha img).2.2.2 + p := min_le_right _ _
  have hbody := crop_body img p (by omega)
  have hKw : ((crop_alpha_bbox img p).w : Int)
      = cropMaxX img p - cropMinX img p + 1 := by
    rw [hbody]
    dsimp only
    omega
  have hKh : ((crop_alpha_bbox img p).h : Int)
      = cropMaxY img p - cropMinY img p + 1 := by
    rw [hbody]
    dsimp only
    omega
  have hfwd : ∀ x y : Nat, inSupport (crop_alpha_bbox img p) x y →
      inSupport img (x + (cropMinX img p).toNat) (y + (cropMinY img p).toNat) := by
    intro x y hxy
    obtain ⟨hxw, hyh, hal⟩ := hxy
    have hx2 : (x : Int) < ((crop_alpha_bbox img p).w : Int) := by exact_mod_cast hxw
    have hy2 : (y : Int) < ((crop_alpha_bbox img p).h : Int) := by exact_mod_cast hyh
    rw [hKw] at hx2
    rw [hKh] at hy2
    refine ⟨by omega, by omega, ?_⟩
    rw [hbody] at hal
    exact hal
  have hbwd : ∀ u v : Nat, inSupport img u v →
      inSupport (crop_alpha_bbox img p)
        (u - (cropMinX img p).toNat) (v - (cropMinY img p).toNat) := by
    intro u v huv
    have hu_ge : (cropMinX img p).toNat ≤ u := by
      have h1 := scanAlpha_minx_le img u v huv
      omega
    have hv_ge : (cropMinY img p).toNat ≤ v := by
      have h1 := scanAlpha_miny_le img u v huv
      omega
    have hu_le : (u : Int) ≤ (scanAlpha img).2.2.1 := le_scanAlpha_maxx img u v huv
    have hv_le : (v : Int) ≤ (scanAlpha img).2.2.2 := le_scanAlpha_maxy img u v huv
    refine ⟨by omega, by omega, ?_⟩
    rw [hbody]
    dsimp only
    rw [Nat.sub_add_cancel hu_ge, Nat.sub_add_cancel hv_ge]
    exact huv.2.2
  have hs1 : (scanAlpha (crop_alpha_bbox img p)).1
      = (scanAlpha img).1 - cropMinX img p := by
    have hw1 := hbwd xm ym hsm
    have hle1 := scanAlpha_minx_le _ _ _ hw1
    obtain ⟨x2, y2, hs2, heq2⟩ := scanAlpha_minx_achieved _ _ _ (hbwd x0 y0 h0)
    have hup := scanAlpha_minx_le img _ _ (hfwd x2 y2 hs2)
    have hxm_ge : (cropMinX img p).toNat ≤ xm := by
      have h1 := scanAlpha_minx_le img xm ym hsm
      omega
    omega
  have hs2 : (scanAlpha (crop_alpha_bbox img p)).2.1
      = (scanAlpha img).2.1 - cropMinY img p := by
    have hw1 := hbwd xn yn hsn
    have hle1 := scanAlpha_miny_le _ _ _ hw1
    obtain ⟨x2, y2, hs2, heq2⟩ := scanAlpha_miny_achieved _ _ _ (hbwd x0 y0 h0)
    have hup := scanAlpha_miny_le img _ _ (hfwd x2 y2 hs2)
    have hyn_ge : (cropMinY img p).toNat ≤ yn := by
      have h1 := scanAlpha_miny_le img xn yn hsn
      omega
    omega
  have hs3 : (scanAlpha (crop_alpha_bbox img p)).2.2.1
      = (scanAlpha img).2.2.1 - cropMinX img p := by
    have hw1 := hbwd xM yM hsM
    have hge1 := le_scanAlpha_maxx _ _ _ hw1
    obtain ⟨x2, y2, hs2, heq2⟩ := scanAlpha_maxx_achieved _ _ _ (hbwd x0 y0 h0)
    have hup := le_scanAlpha_maxx img _ _ (hfwd x2 y2 hs2)
    have hxM_ge : (cropMinX img p).toNat ≤ xM := by
      have h1 := scanAlpha_minx_le img xM yM hsM
      omega
    omega
  have hs4 : (scanAlpha (crop_alpha_bbox img p)).2.2.2
      = (scanAlpha img).2.2.2 - cropMinY img p := by
    have hw1 := hbwd xN yN hsN
    have hge1 := le_scanAlpha_maxy _ _ _ hw1
    obtain ⟨x2, y2, hs2, heq2⟩ := scanAlpha_maxy_achieved _ _ _ (hbwd x0 y0 h0)
    have hup := le_scanAlpha_maxy img _ _ (hfwd x2 y2 hs2)
    have hyN_ge : (cropMinY img p).toNat ≤ yN := by
      have h1 := scanAlpha_miny_le img xN yN hsN
      omega
    omega
  exact ⟨hKw, hKh, hs1, hs2, hs3, hs4,
    ⟨x0 - (cropMinX img p).toNat, y0 - (cropMinY img p).toNat, hbwd x0 y0 h0⟩,
    hA0, hA_ge, hA_le, hB_ge, hB_le_xp, hC0, hC_ge, hC_le, hD_ge, hD_le_yp,
    hmnx0, hmnx_le_maxx, hmny0, hmny_le_maxy⟩

/-- Claim C7 (amended): the alpha-bbox crop is idempotent for the same
padding: cropping an already-cropped image again with the same padding `p`
returns an image with identical bounds. With a strictly smaller padding the
bounds may shrink, because the retained padding margin is cropped away (see
the counterexample). -/
theorem crop_idempotent_same_padding (img : QImg) (p : Int) (hp : 0 ≤ p) :
    (crop_alpha_bbox (crop_alpha_bbox img p) p).w = (crop_alpha_bbox img p).w ∧
    (crop_alpha_bbox (crop_alpha_bbox img p) p).h = (crop_alpha_bbox img p).h := by
  by_cases hsupp : ∃ x y : Nat, inSupport img x y
  · obtain ⟨x0, y0, h0⟩ := hsupp
    obtain ⟨hKw, hKh, hs1, hs2, hs3, hs4, hKsupp,
      hA0, hA_ge, hA_le, hB_ge, hB_le_xp, hC0, hC_ge, hC_le, hD_ge, hD_le_yp,
      hmnx0, hmnx_le_maxx, hmny0, hmny_le_maxy⟩ :=
      crop_nonempty_data img p hp x0 y0 h0
    obtain ⟨x1, y1, h1⟩ := hKsupp
    obtain ⟨hK2w, hK2h, _, _, _, _, _, hA20, hA2_ge, hA2_le, hB2_ge, hB2_le_xp,
      hC20, hC2_ge, hC2_le, hD2_ge, hD2_le_yp, _, _, _, _⟩ :=
      crop_nonempty_data (crop_alpha_bbox img p) p hp x1 y1 h1
    have eA2 : cropMinX (crop_alpha_bbox img p) p
        = max 0 ((scanAlpha (crop_alpha_bbox img p)).1 - p) := rfl
    have eB2 : cropMaxX (crop_alpha_bbox img p) p
        = min (((crop_alpha_bbox img p).w : Int) - 1)
            ((scanAlpha (crop_alpha_bbox img p)).2.2.1 + p) := rfl
    have eC2 : cropMinY (crop_alpha_bbox img p) p
        = max 0 ((scanAlpha (crop_alpha_bbox img p)).2.1 - p) := rfl
    have eD2 : cropMaxY (crop_alpha_bbox img p) p
        = min (((crop_alpha_bbox img p).h : Int) - 1)
            ((scanAlpha (crop_alpha_bbox img p)).2.2.2 + p) := rfl
    constructor
    · omega
    · omega
  · have htr : ∀ x y, x < img.w → y < img.h → img.alpha x y = 0 := by
      intro x y hx hy
      by_contra hne
      exact hsupp ⟨x, y, hx, hy, Nat.pos_of_ne_zero hne⟩
    have h1 := crop_eq_of_transparent img p htr
    simp only [h1]
    exact ⟨trivial, trivial⟩

theorem crop_idempotent_same_padding_witness :
    (0 : Int) ≤ 2 ∧
    ((crop_alpha_bbox (crop_alpha_bbox dotImg 2) 2).w
        = (crop_alpha_bbox dotImg 2).w ∧
      (crop_alpha_bbox (crop_alpha_bbox dotImg 2) 2).h
        = (crop_alpha_bbox dotImg 2).h) :=
  ⟨by decide, crop_idempotent_same_padding dotImg 2 (by decide)⟩

/-- Claim C7 is false as stated for a padding strictly smaller than the one
used to crop: `dotImg` (5×5, single opaque pixel at (2,2)) cropped with
padding 2 keeps its 5×5 bounds, but cropping that result again with padding
0 ≤ 2 shrinks it to 1×1, not identical bounds. -/
theorem crop_smaller_padding_counterexample :
    ¬ ((crop_alpha_bbox (crop_alpha_bbox dotImg 2) 0).w
         = (crop_alpha_bbox dotImg 2).w ∧
       (crop_alpha_bbox (crop_alpha_bbox dotImg 2) 0).h
         = (crop_alpha_bbox dotImg 2).h) := by
  decide
